import Mathlib

/-!
Verification development for a small activity-report helper
(`scripts/activity-helper.py`).  Python strings are embedded as `List Char`;
the filesystem and the spawned external command are modelled as explicit
oracles passed to the functions that consult them.  All definitions are
transliterated from the source; spec-side definitions are clearly marked.
-/

set_option maxHeartbeats 1000000

namespace ActivityHelper

/-- Python `str.split(sep)` for a one-character separator: splitting the
empty list yields `[[]]`, and every separator occurrence opens a new
(possibly empty) segment, exactly as in Python. -/
def splitOnChar (c : Char) : List Char → List (List Char)
  | [] => [[]]
  | x :: xs =>
    if x = c then [] :: splitOnChar c xs
    else (x :: (splitOnChar c xs).headI) :: (splitOnChar c xs).tail

/-- Whitespace characters removed by Python `str.strip()` (ASCII subset:
space, tab, newline, carriage return, vertical tab, form feed). -/
def isPySpace (c : Char) : Bool :=
  c == ' ' || c == '\t' || c == '\n' || c == '\r' ||
  c == Char.ofNat 11 || c == Char.ofNat 12

/-- Python `str.strip()`: drop whitespace from both ends. -/
def pyStrip (l : List Char) : List Char :=
  ((l.dropWhile isPySpace).reverse.dropWhile isPySpace).reverse

/-- Python substring containment `needle in hay` (the empty needle is
contained in everything). -/
def pySubstr (needle : List Char) : List Char → Bool
  | [] => needle.isEmpty
  | x :: xs => needle.isPrefixOf (x :: xs) || pySubstr needle xs

/-- `pathlib.Path(...).name`: the final `/`-separated component. -/
def baseName (p : List Char) : List Char :=
  (splitOnChar '/' p).getLastD []

/-- Outcome of one `subprocess.run` invocation: either the spawn raised
(missing executable, any OS error), or the command completed with an exit
code and captured standard output. -/
inductive CmdOutcome where
  | spawnError : CmdOutcome
  | completed (exitCode : Int) (stdout : List Char) : CmdOutcome
deriving DecidableEq

/-- One parsed commit line: `hash` and `msg` fields of the emitted dict. -/
structure CommitEntry where
  hash : List Char
  msg : List Char
deriving DecidableEq

/-- One discovered file: `path`, `size`, `name` fields of the emitted dict. -/
structure FileEntry where
  path : List Char
  size : Nat
  name : List Char
deriving DecidableEq

/-- A file on disk, as the traversal oracle reports it: absolute path and
byte size (its base filename is `baseName` of the path). -/
structure FsFile where
  path : List Char
  size : Nat
deriving DecidableEq

/-- Filesystem oracle: directory existence, and the recursive enumeration
of all files (at any nesting depth) under a directory, as performed by
`Path.rglob`. -/
structure FileSystem where
  dirExists : List Char → Bool
  filesUnder : List Char → List FsFile

/-- `PSI = os.path.expanduser("~/Code/github.com/laris-co/Nat-s-Agents/ψ")`,
with the user's home directory passed explicitly. -/
def PSI (home : List Char) : List Char :=
  home ++ "/Code/github.com/laris-co/Nat-s-Agents/ψ".data

/-- `REPO = os.path.expanduser("~/Code/github.com/laris-co/Nat-s-Agents")`. -/
def REPO (home : List Char) : List Char :=
  home ++ "/Code/github.com/laris-co/Nat-s-Agents".data

/-- `Path(PSI) / folder`. -/
def psiPath (home folder : List Char) : List Char :=
  PSI home ++ '/' :: folder

/-- The exact argument vector passed to `subprocess.run` in `get_commits`. -/
def gitLogArgv (home date_str : List Char) : List (List Char) :=
  ["git".data, "-C".data, REPO home, "log".data, "--oneline".data,
   "--after".data, date_str ++ " 00:00".data,
   "--before".data, date_str ++ " 23:59".data,
   "--format=%h|%s".data]

/-- `{"hash": l.split('|')[0], "msg": l.split('|')[1][:60]}` for one line
(the line is guaranteed by the caller to contain a bar, so index 1 exists). -/
def commitOfLine (l : List Char) : CommitEntry :=
  CommitEntry.mk (splitOnChar '|' l).headI ((splitOnChar '|' l).tail.headI.take 60)

/-- The list-comprehension body of `get_commits`:
`[... for l in r.stdout.strip().split('\n') if '|' in l]`. -/
def parseCommits (out : List Char) : List CommitEntry :=
  ((splitOnChar '\n' (pyStrip out)).filter (fun l => l.contains '|')).map commitOfLine

/-- `get_commits(date_str)`, with the spawn modelled by an oracle `env`
mapping the argument vector to its outcome.  A spawn exception is absorbed
by the bare `except:` and yields `[]`; a completed run has its captured
stdout parsed regardless of exit code (the code never inspects it). -/
def get_commits (env : List (List Char) → CmdOutcome) (home date_str : List Char) :
    List CommitEntry :=
  match env (gitLogArgv home date_str) with
  | CmdOutcome.spawnError => []
  | CmdOutcome.completed _ out => parseCommits out

/-- `find_files(folder, date_str)`: empty when the directory is absent,
otherwise `rglob("*.md")` (filename ends in `.md`) filtered by
`date_str in f.name`, each file rendered as a `FileEntry`. -/
def find_files (fs : FileSystem) (home folder date_str : List Char) : List FileEntry :=
  if fs.dirExists (psiPath home folder) then
    (((fs.filesUnder (psiPath home folder)).filter
        (fun f => List.isSuffixOf ".md".data (baseName f.path))).filter
      (fun f => pySubstr date_str (baseName f.path))).map
      (fun f => FileEntry.mk f.path f.size (baseName f.path))
  else []

/-- The opening-brace character of the serialized output. -/
def lbrace : Char := Char.ofNat 123

/-- The closing-brace character of the serialized output. -/
def rbrace : Char := Char.ofNat 125

/-- One hexadecimal digit, lowercase, as produced by `json.dumps`. -/
def hexDigitChar (n : Nat) : Char :=
  if n < 10 then Char.ofNat (48 + n) else Char.ofNat (97 + (n - 10))

/-- A `\uXXXX` escape for a code point below `0x10000`. -/
def uEscape4 (n : Nat) : List Char :=
  ['\\', 'u', hexDigitChar (n / 4096 % 16), hexDigitChar (n / 256 % 16),
   hexDigitChar (n / 16 % 16), hexDigitChar (n % 16)]

/-- `json.dumps` escaping of one code point outside the printable ASCII
range: `\uXXXX`, or a surrogate pair for code points above `0xFFFF`. -/
def uEscape (n : Nat) : List Char :=
  if n < 65536 then uEscape4 n
  else uEscape4 (55296 + (n - 65536) / 1024) ++ uEscape4 (56320 + (n - 65536) % 1024)

/-- `json.dumps` (default `ensure_ascii=True`) escaping of one character:
backslash, quote and the five short escapes are special; printable ASCII is
kept; everything else becomes `\uXXXX`. -/
def jsonEscapeChar (c : Char) : List Char :=
  if c = '\\' then ['\\', '\\']
  else if c = '"' then ['\\', '"']
  else if c = Char.ofNat 8 then ['\\', 'b']
  else if c = '\t' then ['\\', 't']
  else if c = '\n' then ['\\', 'n']
  else if c = Char.ofNat 12 then ['\\', 'f']
  else if c = '\r' then ['\\', 'r']
  else if 32 ≤ c.toNat && c.toNat ≤ 126 then [c]
  else uEscape c.toNat

/-- A JSON string literal: escaped content between double quotes. -/
def jsonQuote (s : List Char) : List Char :=
  '"' :: ((s.map jsonEscapeChar).flatten ++ ['"'])

/-- A JSON array with `json.dumps` default separators: elements joined by
a comma and a space, between square brackets. -/
def jsonList (xs : List (List Char)) : List Char :=
  '[' :: (List.intercalate ", ".data xs ++ [']'])

/-- Serialization of one file dict, keys in source order `path, size, name`. -/
def serFileEntry (e : FileEntry) : List Char :=
  lbrace :: ("\"path\": ".data ++ jsonQuote e.path ++ ", \"size\": ".data ++
    (toString e.size).data ++ ", \"name\": ".data ++ jsonQuote e.name ++ [rbrace])

/-- Serialization of one commit dict, keys in source order `hash, msg`. -/
def serCommitEntry (c : CommitEntry) : List Char :=
  lbrace :: ("\"hash\": ".data ++ jsonQuote c.hash ++ ", \"msg\": ".data ++
    jsonQuote c.msg ++ [rbrace])

/-- The single output record of one run. -/
structure Report where
  date : List Char
  learnings : List FileEntry
  retrospectives : List FileEntry
  drafts : List FileEntry
  commits : List CommitEntry
deriving DecidableEq

/-- `json.dumps` of the dict literal built in `main`, keys in insertion
order `date, learnings, retrospectives, drafts, commits`. -/
def serializeReport (r : Report) : List Char :=
  lbrace :: ("\"date\": ".data ++ jsonQuote r.date ++
    ", \"learnings\": ".data ++ jsonList (r.learnings.map serFileEntry) ++
    ", \"retrospectives\": ".data ++ jsonList (r.retrospectives.map serFileEntry) ++
    ", \"drafts\": ".data ++ jsonList (r.drafts.map serFileEntry) ++
    ", \"commits\": ".data ++ jsonList (r.commits.map serCommitEntry) ++ [rbrace])

/-- The dict built in `main`, with the resolved date passed in as `now`. -/
def build_report (fs : FileSystem) (env : List (List Char) → CmdOutcome)
    (home now : List Char) : Report :=
  Report.mk now
    (find_files fs home "memory/learnings".data now)
    (find_files fs home "memory/retrospectives".data now)
    (find_files fs home "writing/drafts".data now)
    (get_commits env home now)

/-- Everything `print(json.dumps(...))` sends to standard output: the
serialized report followed by a newline. -/
def main_output (fs : FileSystem) (env : List (List Char) → CmdOutcome)
    (home now : List Char) : List Char :=
  serializeReport (build_report fs env home now) ++ ['\n']

/-- Observable side effects of a run: filesystem reads and writes, process
spawns, and writes to the standard output and error streams. -/
inductive Effect where
  | fsRead (path : List Char) : Effect
  | fsWrite (path : List Char) : Effect
  | spawn (argv : List (List Char)) : Effect
  | stdout (s : List Char) : Effect
  | stderr (s : List Char) : Effect
deriving DecidableEq

/-- Effects of `find_files`: the `path.exists()` check reads the directory
path; when it exists, `rglob` and `stat` read the enumerated files. -/
def find_files_effects (fs : FileSystem) (home folder : List Char) : List Effect :=
  Effect.fsRead (psiPath home folder) ::
    (if fs.dirExists (psiPath home folder) then
      (fs.filesUnder (psiPath home folder)).map (fun f => Effect.fsRead f.path)
    else [])

/-- Effects of `get_commits`: a single `subprocess.run` spawn. -/
def get_commits_effects (home date_str : List Char) : List Effect :=
  [Effect.spawn (gitLogArgv home date_str)]

/-- Effects of one complete run of `main`, in program order: the three
folder scans, the one spawn, and the single `print` to standard output. -/
def main_effects (fs : FileSystem) (env : List (List Char) → CmdOutcome)
    (home now : List Char) : List Effect :=
  find_files_effects fs home "memory/learnings".data ++
  find_files_effects fs home "memory/retrospectives".data ++
  find_files_effects fs home "writing/drafts".data ++
  get_commits_effects home now ++
  [Effect.stdout (main_output fs env home now)]

/-- True of an effect exactly when it is a filesystem write. -/
def isFsWrite : Effect → Bool
  | Effect.fsWrite _ => true
  | _ => false

/-- True of an effect exactly when it writes to the error stream. -/
def isStderrWrite : Effect → Bool
  | Effect.stderr _ => true
  | _ => false

/-- True of an effect exactly when it writes to standard output. -/
def isStdoutWrite : Effect → Bool
  | Effect.stdout _ => true
  | _ => false

/-- The failure modes of the external invocation named by the spec: the
spawn raised (missing executable, missing working directory), or the
command completed unsuccessfully — a failing `git log` reports on standard
error only, so its captured standard output strips to nothing. -/
def invocationFailed : CmdOutcome → Prop
  | CmdOutcome.spawnError => True
  | CmdOutcome.completed code out => code ≠ 0 ∧ pyStrip out = []

/-- Spec-side, from the claim's words: the hash is the portion of the line
before the first bar kept verbatim, and the message is the entire remainder
of the line after the first bar, truncated to at most 60 characters. -/
def claimedCommitOfLine (l : List Char) : CommitEntry :=
  CommitEntry.mk (l.takeWhile (fun x => x != '|'))
    (((l.dropWhile (fun x => x != '|')).tail).take 60)

/-- Spec-side, from the amended claim's words: the hash is the portion of
the line before the first bar kept verbatim, and the message is the portion
strictly between the first bar and the next bar (to the end of the line
when there is no second bar), truncated to at most 60 characters. -/
def amendedCommitOfLine (l : List Char) : CommitEntry :=
  CommitEntry.mk (l.takeWhile (fun x => x != '|'))
    ((((l.dropWhile (fun x => x != '|')).tail).takeWhile (fun x => x != '|')).take 60)

/-- Spec-side check for one returned entry of `find_files`: some file under
the scanned directory has a base filename ending in `.md` and containing
the date key, and the entry carries exactly that file's absolute path, byte
size, and base filename. -/
def entryMatches (fs : FileSystem) (p d : List Char) (e : FileEntry) : Bool :=
  (fs.filesUnder p).any (fun f =>
    e.path == f.path && e.size == f.size && e.name == baseName f.path &&
    List.isSuffixOf ".md".data (baseName f.path) && pySubstr d (baseName f.path))

/-- Fixture: a command whose output is one log line holding two bars. -/
def envBars : List (List Char) → CmdOutcome :=
  fun _ => CmdOutcome.completed 0 "abc|foo|bar".data

/-- Fixture: a spawn that raises (for example, a missing executable). -/
def envDown : List (List Char) → CmdOutcome := fun _ => CmdOutcome.spawnError

/-- Fixture: the resolved learnings directory under an empty home. -/
def dirA : List Char := psiPath [] "memory/learnings".data

/-- Fixture: a filesystem where only the learnings directory exists,
holding two markdown files (one nested) and one text file. -/
def fsA : FileSystem :=
  FileSystem.mk (fun p => p == dirA)
    (fun p => if p == dirA then
        [FsFile.mk (dirA ++ "/foo-2024-01-01.md".data) 10,
         FsFile.mk (dirA ++ "/sub/bar-2024-01-02.md".data) 5,
         FsFile.mk (dirA ++ "/notes.txt".data) 3]
      else [])

/-- Fixture: a filesystem with no directories at all. -/
def fsNone : FileSystem := FileSystem.mk (fun _ => false) (fun _ => [])

/-- Fixture: a log line whose message segment is 61 characters long. -/
def longLine : List Char := "abc|".data ++ List.replicate 61 'x'

/-- Fixture: a command producing `longLine` as its output. -/
def envLong : List (List Char) → CmdOutcome := fun _ => CmdOutcome.completed 0 longLine

/-- Fixture: a command output mixing a bar-free line with a commit line. -/
def envMix : List (List Char) → CmdOutcome :=
  fun _ => CmdOutcome.completed 0 "no bars here\nabc|yes".data

/-- Fixture: a command that completes with whitespace-only output. -/
def envWs : List (List Char) → CmdOutcome := fun _ => CmdOutcome.completed 0 " \n ".data

/-- The head segment of a Python-style split is everything before the
first separator. -/
theorem headI_splitOnChar (c : Char) (l : List Char) :
    (splitOnChar c l).headI = l.takeWhile (fun x => x != c) := by
  induction l with
  | nil => rfl
  | cons x xs ih =>
    by_cases hx : x = c
    · subst hx
      simp [splitOnChar, List.takeWhile_cons]
    · simp [splitOnChar, hx, List.takeWhile_cons, ih, bne_iff_ne]

/-- When the separator occurs, the second segment of a Python-style split
is everything strictly between the first separator and the next one. -/
theorem second_splitOnChar (c : Char) (l : List Char) (hm : c ∈ l) :
    (splitOnChar c l).tail.headI =
      ((l.dropWhile (fun x => x != c)).tail).takeWhile (fun x => x != c) := by
  induction l with
  | nil => cases hm
  | cons x xs ih =>
    by_cases hx : x = c
    · subst hx
      simp [splitOnChar, List.dropWhile_cons, headI_splitOnChar]
    · have hxs : c ∈ xs := by
        rcases List.mem_cons.mp hm with h | h
        · exact absurd h.symm hx
        · exact h
      simp [splitOnChar, hx, List.dropWhile_cons, ih hxs, bne_iff_ne]

/-- Stripping an all-whitespace string leaves nothing. -/
theorem pyStrip_of_all_space (l : List Char) (h : ∀ x ∈ l, isPySpace x = true) :
    pyStrip l = [] := by
  unfold pyStrip
  rw [List.dropWhile_eq_nil_iff.mpr h]
  rfl

/-- Output that strips to nothing parses to no commit entries: splitting
the empty string yields one empty line, which the bar filter drops. -/
theorem parseCommits_strip_nil (out : List Char) (h : pyStrip out = []) :
    parseCommits out = [] := by
  unfold parseCommits
  rw [h]
  rfl

/-- Boolean containment of a bar implies membership. -/
theorem mem_of_contains (l : List Char) (h : l.contains '|' = true) : '|' ∈ l := by
  simpa using h

/-- On a line containing a bar, the parsed entry of the source agrees with
the amended claim's description. -/
theorem commitOfLine_eq_amended (l : List Char) (h : l.contains '|' = true) :
    commitOfLine l = amendedCommitOfLine l := by
  unfold commitOfLine amendedCommitOfLine
  rw [headI_splitOnChar, second_splitOnChar '|' l (mem_of_contains l h)]

/-- Every parsed message is capped at 60 characters by the slice. -/
theorem parseCommits_msg_le (out : List Char) :
    ∀ e ∈ parseCommits out, e.msg.length ≤ 60 := by
  intro e he
  unfold parseCommits at he
  rcases List.mem_map.mp he with ⟨l, _, rfl⟩
  simp [commitOfLine]

/-- A predicate false on filesystem reads filters a scan's effects to
nothing: a scan only ever reads. -/
theorem filter_find_files_effects (fs : FileSystem) (home folder : List Char)
    (p : Effect → Bool) (hp : ∀ q, p (Effect.fsRead q) = false) :
    (find_files_effects fs home folder).filter p = [] := by
  unfold find_files_effects
  rcases h : fs.dirExists (psiPath home folder)
  · simp [List.filter_cons, hp]
  · rw [List.filter_cons]
    simp only [hp, h, if_true, Bool.false_eq_true, if_false]
    rw [List.filter_eq_nil_iff]
    intro e he
    rcases List.mem_map.mp he with ⟨f, _, rfl⟩
    simp [hp]

/-- Claim C1 (amended): for every line of the captured output containing at
least one bar, `get_commits` produces exactly one entry whose hash is the
portion before the first bar kept verbatim and whose message is the portion
strictly between the first bar and the next bar (to the end of the line when
there is no second bar), truncated to at most 60 characters. -/
theorem get_commits_amended (env : List (List Char) → CmdOutcome) (home d code out : _)
    (h : env (gitLogArgv home d) = CmdOutcome.completed code out) :
    get_commits env home d =
      ((splitOnChar '\n' (pyStrip out)).filter (fun l => l.contains '|')).map
        amendedCommitOfLine := by
  simp only [get_commits, h]
  unfold parseCommits
  exact List.map_congr_left (fun l hl => commitOfLine_eq_amended l (List.mem_filter.mp hl).2)

/-- Witness for claim C1 (amended), at a two-bar log line. -/
theorem get_commits_amended_witness :
    get_commits envBars [] [] =
      ((splitOnChar '\n' (pyStrip "abc|foo|bar".data)).filter (fun l => l.contains '|')).map
        amendedCommitOfLine :=
  get_commits_amended envBars [] [] 0 ("abc|foo|bar".data) rfl

/-- Claim C1 as stated is false: on the line `abc|foo|bar` the code emits
the message `foo` (cut at the second bar), not the entire remainder
`foo|bar` of the line after the first bar. -/
theorem get_commits_claimed_counterexample :
    get_commits envBars [] [] ≠ [claimedCommitOfLine "abc|foo|bar".data] := by decide

/-- Claim C2: a failed external invocation (spawn exception, or unsuccessful
completion, whose captured output strips to nothing) yields the empty
sequence; `get_commits` is total, so no exception escapes. -/
theorem get_commits_failure_empty (env : List (List Char) → CmdOutcome) (home d : List Char)
    (h : invocationFailed (env (gitLogArgv home d))) : get_commits env home d = [] := by
  rcases hE : env (gitLogArgv home d) with _ | ⟨code, out⟩
  · simp [get_commits, hE]
  · rw [hE] at h
    simp [get_commits, hE, parseCommits_strip_nil out h.2]

/-- Witness for claim C2, at a spawn that raises. -/
theorem get_commits_failure_empty_witness :
    invocationFailed (envDown (gitLogArgv [] [])) ∧ get_commits envDown [] [] = [] :=
  ⟨trivial, get_commits_failure_empty envDown [] [] trivial⟩

/-- Claim C3: when the resolved directory exists, every entry returned by
`find_files` corresponds to a file enumerated under that directory whose
base filename ends in `.md` and contains the date key, and the entry
carries that file's absolute path, byte size, and base filename. -/
theorem find_files_only_matching (fs : FileSystem) (home folder d : List Char)
    (h : fs.dirExists (psiPath home folder) = true) :
    (find_files fs home folder d).all (entryMatches fs (psiPath home folder) d) = true := by
  rw [List.all_eq_true]
  intro e he
  simp only [find_files, h, if_true] at he
  rcases List.mem_map.mp he with ⟨f, hf, rfl⟩
  rcases List.mem_filter.mp hf with ⟨hf2, hsub⟩
  rcases List.mem_filter.mp hf2 with ⟨hmem, hsuf⟩
  rw [entryMatches, List.any_eq_true]
  refine ⟨f, hmem, ?_⟩
  simp [hsuf, hsub]

/-- Witness for claim C3, at a directory holding a matching file, a
nested matching file for another date, and a text file. -/
theorem find_files_only_matching_witness :
    fsA.dirExists (psiPath [] "memory/learnings".data) = true ∧
      (find_files fsA [] "memory/learnings".data "2024-01-01".data).all
        (entryMatches fsA (psiPath [] "memory/learnings".data) "2024-01-01".data) = true :=
  ⟨by decide, find_files_only_matching fsA [] ("memory/learnings".data) ("2024-01-01".data)
    (by decide)⟩

/-- Claim C4: when the resolved directory does not exist, `find_files`
returns the empty sequence; the function is total, so no error is raised. -/
theorem find_files_absent_dir (fs : FileSystem) (home folder d : List Char)
    (h : fs.dirExists (psiPath home folder) = false) :
    find_files fs home folder d = [] := by
  simp [find_files, h]

/-- Witness for claim C4, on a filesystem with no directories. -/
theorem find_files_absent_dir_witness :
    fsNone.dirExists (psiPath [] "memory/retrospectives".data) = false ∧
      find_files fsNone [] "memory/retrospectives".data "2024-01-01".data = [] :=
  ⟨rfl, find_files_absent_dir fsNone [] ("memory/retrospectives".data) ("2024-01-01".data) rfl⟩

/-- Claim C5: for every filesystem, command environment, home and date —
in particular when every lookup is empty — the serialized report is an
object carrying the five keys `date`, `learnings`, `retrospectives`,
`drafts`, `commits` in exactly that order. -/
theorem report_keys_fixed_order (fs : FileSystem) (env : List (List Char) → CmdOutcome)
    (home now : List Char) :
    ∃ v1 v2 v3 v4 v5 : List Char,
      serializeReport (build_report fs env home now) =
        lbrace :: ("\"date\": ".data ++ v1 ++ ", \"learnings\": ".data ++ v2 ++
          ", \"retrospectives\": ".data ++ v3 ++ ", \"drafts\": ".data ++ v4 ++
          ", \"commits\": ".data ++ v5 ++ [rbrace]) :=
  ⟨jsonQuote (build_report fs env home now).date,
   jsonList ((build_report fs env home now).learnings.map serFileEntry),
   jsonList ((build_report fs env home now).retrospectives.map serFileEntry),
   jsonList ((build_report fs env home now).drafts.map serFileEntry),
   jsonList ((build_report fs env home now).commits.map serCommitEntry),
   rfl⟩

/-- Claim C6: every commit entry produced by `get_commits` has a message of
at most 60 characters, and a line whose message segment exceeds 60
characters is cut to exactly 60. -/
theorem commit_msg_le_60 (env : List (List Char) → CmdOutcome) (home d : List Char) :
    (∀ e ∈ get_commits env home d, e.msg.length ≤ 60) ∧
      (∀ l : List Char, 60 < (splitOnChar '|' l).tail.headI.length →
        (commitOfLine l).msg.length = 60) := by
  constructor
  · rcases hE : env (gitLogArgv home d) with _ | ⟨code, out⟩
    · intro e he
      simp [get_commits, hE] at he
    · intro e he
      simp only [get_commits, hE] at he
      exact parseCommits_msg_le out e he
  · intro l hl
    simp only [commitOfLine, List.length_take]
    omega

/-- Witness for claim C6, at a line whose message segment is 61 characters:
the emitted entry's message has exactly 60. -/
theorem commit_msg_le_60_witness :
    (CommitEntry.mk "abc".data (List.replicate 60 'x')).msg.length ≤ 60 ∧
      (commitOfLine longLine).msg.length = 60 :=
  ⟨(commit_msg_le_60 envLong [] []).1 (CommitEntry.mk "abc".data (List.replicate 60 'x'))
      (by decide),
   (commit_msg_le_60 envLong [] []).2 longLine (by decide)⟩

/-- Claim C7: the number of entries produced equals the number of output
lines containing a bar, so a bar-free line contributes no entry. -/
theorem line_without_bar_dropped (env : List (List Char) → CmdOutcome)
    (home d code out : _) (h : env (gitLogArgv home d) = CmdOutcome.completed code out) :
    (get_commits env home d).length =
      (splitOnChar '\n' (pyStrip out)).countP (fun l => l.contains '|') := by
  rw [List.countP_eq_length_filter]
  simp [get_commits, h, parseCommits]

/-- Witness for claim C7: two output lines, one bar-free, one entry. -/
theorem line_without_bar_dropped_witness :
    (get_commits envMix [] []).length =
      (splitOnChar '\n' (pyStrip "no bars here\nabc|yes".data)).countP
        (fun l => l.contains '|') :=
  line_without_bar_dropped envMix [] [] 0 ("no bars here\nabc|yes".data) rfl

/-- Claim C8: `get_commits` spawns exactly one external command, the
version-control log query over the fixed repository path with one-line
format, day window from `D 00:00` to `D 23:59`, and the custom
hash-bar-subject format string. -/
theorem git_command_exact (home d : List Char) :
    get_commits_effects home d =
      [Effect.spawn ("git".data :: "-C".data :: REPO home :: "log".data ::
        "--oneline".data :: "--after".data :: (d ++ " 00:00".data) ::
        "--before".data :: (d ++ " 23:59".data) :: ["--format=%h|%s".data])] := rfl

/-- Claim C9: a complete run performs no filesystem writes, writes nothing
to the error stream on any path (absent directories and failed commands
included), and writes exactly one line — the serialized report — to
standard output. -/
theorem run_no_writes_no_stderr_single_stdout (fs : FileSystem)
    (env : List (List Char) → CmdOutcome) (home now : List Char) :
    (main_effects fs env home now).filter isFsWrite = [] ∧
      (main_effects fs env home now).filter isStderrWrite = [] ∧
      (main_effects fs env home now).filter isStdoutWrite =
        [Effect.stdout (main_output fs env home now)] := by
  refine ⟨?_, ?_, ?_⟩ <;>
    simp [main_effects, List.filter_append, get_commits_effects, List.filter_cons,
      isFsWrite, isStderrWrite, isStdoutWrite,
      filter_find_files_effects fs home _ isFsWrite (fun q => rfl),
      filter_find_files_effects fs home _ isStderrWrite (fun q => rfl),
      filter_find_files_effects fs home _ isStdoutWrite (fun q => rfl)]

/-- Claim C10: when the external command completes with whitespace-only
output, stripping and splitting produce a single empty line, the bar filter
drops it, and `get_commits` returns the empty sequence. -/
theorem whitespace_stdout_no_commits (env : List (List Char) → CmdOutcome)
    (home d code out : _) (h : env (gitLogArgv home d) = CmdOutcome.completed code out)
    (hw : out.all isPySpace = true) : get_commits env home d = [] := by
  simp [get_commits, h,
    parseCommits_strip_nil out (pyStrip_of_all_space out (List.all_eq_true.mp hw))]

/-- Witness for claim C10, at a command completing with whitespace output. -/
theorem whitespace_stdout_no_commits_witness :
    (" \n ".data.all isPySpace = true) ∧ get_commits envWs [] [] = [] :=
  ⟨by decide, whitespace_stdout_no_commits envWs [] [] 0 (" \n ".data) rfl (by decide)⟩

end ActivityHelper
